import Mathlib

/-!
Shallow embedding of the rule-chain administration code of
`pdns/dnsdist-lua-rules.cc` (dnsdist's Lua-facing rule management), together
with theorems settling the specification claims about it.

Modelling conventions:
* A rule/action chain entry (`DNSDistRuleAction` together with the match
  counter `d_rule->d_matches` it exposes) is `RuleEntry`; UUIDs are modelled
  as `Nat`, the match counter value as `Nat`.
* `GlobalStateHolder` operations (`getCopy`/`setState`) are modelled by
  plain value passing: an administrative operation takes the published chain
  and returns the chain it publishes, paired with the error message it
  writes to `g_outputBuffer` (`none` when no error is reported).
* External parsers that live outside this translation unit (UUID parsing by
  `getUniqueID(str)`, netmask parsing by `NetmaskGroup::addMask`,
  `QType::chartocode`) are abstracted as function parameters, so every
  theorem quantifies over their behaviour.
* `std::sort` guarantees only that its output is a permutation of its input
  that is sorted with respect to the comparator; the relative order of
  equivalent elements is unspecified.  `getTopRules` is therefore modelled
  as a relation between input chain and possible outputs.
-/

namespace DnsdistLuaRules

/-- One chain entry: identity and statistics metadata of a
`DNSDistRuleAction` (the match counter lives on the rule object in the
source, `lim.d_rule->d_matches`; it is flattened into the entry here). -/
structure RuleEntry where
  d_id : Nat
  d_name : String
  d_matches : Nat
  d_creationOrder : Nat
deriving DecidableEq, Repr

instance : Inhabited RuleEntry := ⟨⟨0, "", 0, 0⟩⟩

/-- Model of the `DNSRule` objects built by the Lua-facing constructors in
this file.  Each constructor of interest keeps exactly the data its C++
constructor receives. -/
inductive DNSRule where
  | suffixMatchNodeRule (smn : List String) (quiet : Bool)
  | netmaskGroupRule (nmg : List String) (src : Bool) (quiet : Bool)
  | qtypeRule (qtype : Nat)
  | qclassRule (qclass : Nat)
  | opcodeRule (code : Nat)
  | dstPortRule (port : Nat)
  | recordsCountRule (sectionCode : Nat) (minCount : Nat) (maxCount : Nat)
  | rcodeRule (rcode : Nat)
  | ercodeRule (rcode : Nat)
  | ednsVersionRule (version : Nat)
  | ednsOptionRule (optcode : Nat)
deriving DecidableEq, Repr

/-! ## `makeRule` (lines 26-59)

The string inputs (a single `string` is the one-element case of
`LuaArray<std::string>`): each element is first offered to
`NetmaskGroup::addMask`; when that throws, the element is added to the
`SuffixMatchNode` instead.  Whether `addMask` accepts a string is decided
outside this translation unit, so it is a parameter `isMask`.  Finally, if
no mask was collected the result is `SuffixMatchNodeRule(smn)` (whose
`quiet` parameter defaults to `false` in `dnsdist-rules.hh`), otherwise
`NetmaskGroupRule(nmg, true)` (src = true, `quiet` defaulting to `false`;
the defaults are modelled from the spec: "source-address match,
non-quiet"). -/

/-- The accumulation loop of `makeRule`: masks into the `NetmaskGroup`,
everything `addMask` rejects into the `SuffixMatchNode`. -/
def makeRuleAccum (isMask : String → Bool) (input : List String) :
    List String × List String :=
  input.foldl
    (fun acc src =>
      if isMask src then (acc.1 ++ [src], acc.2) else (acc.1, acc.2 ++ [src]))
    ([], [])

/-- `makeRule` on a string / list-of-strings input. -/
def makeRule (isMask : String → Bool) (input : List String) : DNSRule :=
  let acc := makeRuleAccum isMask input
  if acc.1.isEmpty then DNSRule.suffixMatchNodeRule acc.2 false
  else DNSRule.netmaskGroupRule acc.1 true false

/-! ## `rmRule` (lines 137-171) -/

/-- `rmRule`.  `parse` models `getUniqueID(str)`: `some uuid` when the
string parses as a UUID, `none` when a `std::runtime_error` is thrown.
The argument `id` is the `boost::variant<unsigned int, std::string>`.
Returns the chain that ends up published together with the error message
written to `g_outputBuffer` (`none` if no error: on error the function
returns before `setState`, so the published chain is unchanged). -/
def rmRule (parse : String → Option Nat) (rules : List RuleEntry)
    (id : Sum Nat String) : List RuleEntry × Option String :=
  match id with
  | Sum.inr str =>
    match parse str with
    | some uuid =>
      let remaining := rules.filter (fun a => a.d_id ≠ uuid)
      if remaining.length = rules.length then
        (rules, some "Error: no rule matched\n")
      else (remaining, none)
    | none =>
      let remaining := rules.filter (fun a => a.d_name ≠ str)
      if remaining.length = rules.length then
        (rules, some "Error: no rule matched\n")
      else (remaining, none)
  | Sum.inl pos =>
    if rules.length ≤ pos then
      (rules, some "Error: attempt to delete non-existing rule\n")
    else (rules.eraseIdx pos, none)

/-! ## `moveRuleToTop` (lines 173-183) -/

/-- `moveRuleToTop`: on an empty chain return without `setState`; otherwise
take the last entry, erase it, and insert it at the front. -/
def moveRuleToTop (rules : List RuleEntry) : List RuleEntry :=
  match rules.getLast? with
  | none => rules
  | some subject => subject :: rules.dropLast

/-! ## `mvRule` (lines 185-203) -/

/-- `mvRule from to`: bounds check (`from >= size || to > size` errors and
leaves the chain alone), then erase at `from` and reinsert: `push_back`
when `to` exceeds the shrunk size, otherwise insert at `to`, decremented
by one first when `from < to`. -/
def mvRule (rules : List RuleEntry) (frm tgt : Nat) :
    List RuleEntry × Option String :=
  if rules.length ≤ frm ∨ rules.length < tgt then
    (rules, some "Error: attempt to move rules from/to invalid index\n")
  else
    let subject := rules.getD frm default
    let rules' := rules.eraseIdx frm
    if rules'.length < tgt then (rules' ++ [subject], none)
    else
      let tgt' := if frm < tgt then tgt - 1 else tgt
      (rules'.insertIdx tgt' subject, none)

/-! ## `getTopRules` (lines 205-235) -/

/-- The `counts` vector built by `getTopRules`: one
`(matchCount, position)` pair per entry, positions counted from `k`. -/
def countsFrom (k : Nat) : List RuleEntry → List (Nat × Nat)
  | [] => []
  | r :: rest => (r.d_matches, k) :: countsFrom (k + 1) rest

/-- The `counts` vector of `getTopRules` for a whole chain. -/
def countsOf (rules : List RuleEntry) : List (Nat × Nat) :=
  countsFrom 0 rules

/-- The truncation loop of `getTopRules`: `count` is incremented after each
push and compared with `top` by equality, so `top = 0` never stops the
loop and the whole list is kept. -/
def truncTop (top : Nat) (l : List (Nat × Nat)) : List (Nat × Nat) :=
  if top = 0 then l else l.take top

/-- `getTopRules rules top out`: `out` is a possible result of
`getTopRules(rules, top)`.  `std::sort` may produce any permutation of
`counts` that is non-increasing in the match count (the comparator
`b.first < a.first` ignores the position component), after which the first
`top` pairs (all of them when `top = 0`) are mapped back to entries via
`rules.at(entry.second)`. -/
def getTopRulesRel (rules : List RuleEntry) (top : Nat)
    (out : List RuleEntry) : Prop :=
  ∃ scounts : List (Nat × Nat),
    scounts.Perm (countsOf rules) ∧
    List.Pairwise (fun a b : Nat × Nat => b.1 ≤ a.1) scounts ∧
    out = (truncTop top scounts).map (fun p => rules.getD p.2 default)

/-! ## `MaxQPSIPRule` Lua wrapper (lines 400-402) -/

/-- The seven arguments the C++ `MaxQPSIPRule` constructor receives. -/
structure MaxQPSIPRuleConfig where
  qps : Nat
  burst : Nat
  ipv4trunc : Nat
  ipv6trunc : Nat
  expiration : Nat
  cleanupDelay : Nat
  scanFraction : Nat
deriving DecidableEq, Repr

/-- The Lua wrapper of `MaxQPSIPRule`: fills each omitted optional argument
with its default (`burst` ← `qps`, `ipv4trunc` ← 32, `ipv6trunc` ← 64,
`expiration` ← 300, `cleanupDelay` ← 60, `scanFraction` ← 10) and passes
the result to the constructor.  The Lua argument order is
`(qps, ipv4trunc, ipv6trunc, burst, expiration, cleanupDelay,
scanFraction)`. -/
def MaxQPSIPRule (qps : Nat) (ipv4trunc ipv6trunc burst expiration
    cleanupDelay scanFraction : Option Nat) : MaxQPSIPRuleConfig :=
  { qps := qps
    burst := burst.getD qps
    ipv4trunc := ipv4trunc.getD 32
    ipv6trunc := ipv6trunc.getD 64
    expiration := expiration.getD 300
    cleanupDelay := cleanupDelay.getD 60
    scanFraction := scanFraction.getD 10 }

/-! ## Range-checked rule constructors (lines 513-595)

`checkParameterBound` is declared in `dnsdist-lua.hh` and defined outside
this translation unit. -/

/-- Modelled from the spec: `checkParameterBound` (missing from the
sources; only its call sites are in `dnsdist-lua-rules.cc`) range-checks a
numeric parameter arriving as a wider integer against the target field's
maximum and rejects it with a descriptive error when it is out of range. -/
def boundErrorMsg (parameter : String) (value : Nat) (mx : Nat) : String :=
  "The value (" ++ toString value ++ ") passed to " ++ parameter ++
    " is too large, the maximum is " ++ toString mx

def checkParameterBound (parameter : String) (value : Nat) (mx : Nat) :
    Except String Unit :=
  if mx < value then Except.error (boundErrorMsg parameter value mx)
  else Except.ok ()

/-- `QClassRule` Lua constructor: 16-bit bound check. -/
def QClassRule (c : Nat) : Except String DNSRule := do
  _ ← checkParameterBound "QClassRule" c 65535
  pure (DNSRule.qclassRule c)

/-- `OpcodeRule` Lua constructor: 8-bit bound check. -/
def OpcodeRule (code : Nat) : Except String DNSRule := do
  _ ← checkParameterBound "OpcodeRule" code 255
  pure (DNSRule.opcodeRule code)

/-- `DSTPortRule` Lua constructor: 16-bit bound check. -/
def DSTPortRule (port : Nat) : Except String DNSRule := do
  _ ← checkParameterBound "DSTPortRule" port 65535
  pure (DNSRule.dstPortRule port)

/-- `RecordsCountRule` Lua constructor: 8-bit bound on the section, 16-bit
bounds on both counts, checked in that order. -/
def RecordsCountRule (sectionCode minCount maxCount : Nat) :
    Except String DNSRule := do
  _ ← checkParameterBound "RecordsCountRule" sectionCode 255
  _ ← checkParameterBound "RecordsCountRule" minCount 65535
  _ ← checkParameterBound "RecordsCountRule" maxCount 65535
  pure (DNSRule.recordsCountRule sectionCode minCount maxCount)

/-- `RCodeRule` Lua constructor: 8-bit bound check. -/
def RCodeRule (rcode : Nat) : Except String DNSRule := do
  _ ← checkParameterBound "RCodeRule" rcode 255
  pure (DNSRule.rcodeRule rcode)

/-- `ERCodeRule` Lua constructor: 8-bit bound check. -/
def ERCodeRule (rcode : Nat) : Except String DNSRule := do
  _ ← checkParameterBound "ERCodeRule" rcode 255
  pure (DNSRule.ercodeRule rcode)

/-- `EDNSVersionRule` Lua constructor: 8-bit bound check. -/
def EDNSVersionRule (version : Nat) : Except String DNSRule := do
  _ ← checkParameterBound "EDNSVersionRule" version 255
  pure (DNSRule.ednsVersionRule version)

/-- `EDNSOptionRule` Lua constructor: 16-bit bound check. -/
def EDNSOptionRule (optcode : Nat) : Except String DNSRule := do
  _ ← checkParameterBound "EDNSOptionRule" optcode 65535
  pure (DNSRule.ednsOptionRule optcode)

/-! ## `QTypeRule` Lua constructor (lines 498-511) -/

/-- `QTypeRule` Lua constructor.  On the numeric alternative the
`unsigned int` is assigned to a `uint16_t` local — a silent narrowing
modulo 2^16 with no bound check.  On the string alternative
`QType::chartocode` (external, a parameter here) is consulted and `0`
means failure. -/
def QTypeRule (chartocode : String → Nat) (str : Sum Nat String) :
    Except String DNSRule :=
  match str with
  | Sum.inl dir => Except.ok (DNSRule.qtypeRule (dir % 65536))
  | Sum.inr val =>
    let qtype := chartocode val
    if qtype = 0 then
      Except.error ("Unable to convert '" ++ val ++ "' to a DNS type")
    else Except.ok (DNSRule.qtypeRule qtype)

/-- Modelled from the spec: `QTypeRule::matches` (defined in
`dnsdist-rules.hh`, not among the sources) — the predicate matches exactly
the queries whose qtype equals the stored value. -/
def qtypeRuleMatches (r : DNSRule) (qt : Nat) : Bool :=
  match r with
  | DNSRule.qtypeRule q => q == qt
  | _ => false

/-! ## Concrete chains used to instantiate the theorems -/

/-- A UUID parser that fails on every input (all inputs are names). -/
def parseNoneFn : String → Option Nat := fun _ => none

/-- A UUID parser that parses every input to the UUID `99`. -/
def parse99Fn : String → Option Nat := fun _ => some 99

/-- A UUID parser that parses every input to the UUID `0`. -/
def parse0Fn : String → Option Nat := fun _ => some 0

/-- A one-entry chain. -/
def rulesOne : List RuleEntry := [⟨1, "abc", 0, 0⟩]

/-- A chain with two distinct entries that share the name `x`. -/
def rulesDupName : List RuleEntry := [⟨0, "x", 0, 0⟩, ⟨1, "x", 0, 1⟩]

/-! ## Claim theorems -/

/-- C7: on a non-empty chain `[e0, ..., e(n-1)]`, `moveRuleToTop` publishes
`[e(n-1), e0, ..., e(n-2)]` — the last entry is removed and reinserted at
position 0 — and on an empty chain it is a no-op. -/
theorem moveRuleToTop_spec :
    moveRuleToTop [] = ([] : List RuleEntry) ∧
    ∀ (l : List RuleEntry) (x : RuleEntry),
      moveRuleToTop (l ++ [x]) = x :: l := by
  refine ⟨rfl, fun l x => ?_⟩
  simp [moveRuleToTop, List.getLast?_concat, List.dropLast_concat]

/-- C9: the `MaxQPSIPRule` Lua wrapper gives every omitted optional
parameter its documented default (`burst` ← `qps`, `ipv4trunc` ← 32,
`ipv6trunc` ← 64, `expiration` ← 300, `cleanupDelay` ← 60,
`scanFraction` ← 10) and passes explicitly supplied values through
unchanged. -/
theorem MaxQPSIPRule_defaults :
    ∀ qps a b c d e f : Nat,
      MaxQPSIPRule qps none none none none none none =
        ⟨qps, qps, 32, 64, 300, 60, 10⟩ ∧
      MaxQPSIPRule qps (some a) (some b) (some c) (some d) (some e)
        (some f) = ⟨qps, c, a, b, d, e, f⟩ :=
  fun _ _ _ _ _ _ _ => ⟨rfl, rfl⟩

/-- C10: a numeric `QTypeRule` argument is narrowed to 16 bits with no
range check — any argument, also one above 65535, is silently accepted and
the predicate matches exactly the qtype equal to the argument modulo
2^16 (for instance 70000 yields the predicate for qtype 4464). -/
theorem QTypeRule_numeric_narrowing :
    ∀ (chartocode : String → Nat) (arg qt : Nat),
      QTypeRule chartocode (Sum.inl arg) =
        Except.ok (DNSRule.qtypeRule (arg % 65536)) ∧
      (qtypeRuleMatches (DNSRule.qtypeRule (arg % 65536)) qt = true ↔
        qt = arg % 65536) ∧
      QTypeRule chartocode (Sum.inl 70000) =
        Except.ok (DNSRule.qtypeRule 4464) := by
  intro ctc arg qt
  refine ⟨rfl, ?_, rfl⟩
  rw [show qtypeRuleMatches (DNSRule.qtypeRule (arg % 65536)) qt =
      ((arg % 65536) == qt) from rfl, beq_iff_eq]
  exact eq_comm

/-- Reduction of `rmRule` on a string the UUID parser accepts. -/
theorem rmRule_parse_some (parse : String → Option Nat)
    (rules : List RuleEntry) (str : String) (uuid : Nat)
    (hp : parse str = some uuid) :
    rmRule parse rules (Sum.inr str) =
      if (rules.filter (fun a => a.d_id ≠ uuid)).length = rules.length then
        (rules, some "Error: no rule matched\n")
      else (rules.filter (fun a => a.d_id ≠ uuid), none) := by
  have hstep : rmRule parse rules (Sum.inr str) =
      match parse str with
      | some uuid =>
        let remaining := rules.filter (fun a => a.d_id ≠ uuid)
        if remaining.length = rules.length then
          (rules, some "Error: no rule matched\n")
        else (remaining, none)
      | none =>
        let remaining := rules.filter (fun a => a.d_name ≠ str)
        if remaining.length = rules.length then
          (rules, some "Error: no rule matched\n")
        else (remaining, none) := rfl
  rw [hstep, hp]

/-- Reduction of `rmRule` on a string the UUID parser rejects. -/
theorem rmRule_parse_none (parse : String → Option Nat)
    (rules : List RuleEntry) (str : String)
    (hp : parse str = none) :
    rmRule parse rules (Sum.inr str) =
      if (rules.filter (fun a => a.d_name ≠ str)).length = rules.length then
        (rules, some "Error: no rule matched\n")
      else (rules.filter (fun a => a.d_name ≠ str), none) := by
  have hstep : rmRule parse rules (Sum.inr str) =
      match parse str with
      | some uuid =>
        let remaining := rules.filter (fun a => a.d_id ≠ uuid)
        if remaining.length = rules.length then
          (rules, some "Error: no rule matched\n")
        else (remaining, none)
      | none =>
        let remaining := rules.filter (fun a => a.d_name ≠ str)
        if remaining.length = rules.length then
          (rules, some "Error: no rule matched\n")
        else (remaining, none) := rfl
  rw [hstep, hp]

/-- C4: `rmRule` called with a string that parses as a UUID matching no
entry, or with a string that does not parse as a UUID and matches no
entry's name, reports "no rule matched" and leaves the published chain
unchanged. -/
theorem rmRule_notFound (parse : String → Option Nat)
    (rules : List RuleEntry) (str : String) :
    (∀ uuid, parse str = some uuid → (∀ e ∈ rules, e.d_id ≠ uuid) →
      rmRule parse rules (Sum.inr str) =
        (rules, some "Error: no rule matched\n")) ∧
    (parse str = none → (∀ e ∈ rules, e.d_name ≠ str) →
      rmRule parse rules (Sum.inr str) =
        (rules, some "Error: no rule matched\n")) := by
  constructor
  · intro uuid hp hnone
    have hf : rules.filter (fun a => a.d_id ≠ uuid) = rules :=
      List.filter_eq_self.mpr (by intro a ha; simpa using hnone a ha)
    rw [rmRule_parse_some parse rules str uuid hp, hf, if_pos rfl]
  · intro hp hnone
    have hf : rules.filter (fun a => a.d_name ≠ str) = rules :=
      List.filter_eq_self.mpr (by intro a ha; simpa using hnone a ha)
    rw [rmRule_parse_none parse rules str hp, hf, if_pos rfl]

/-- Witness for C4 at a concrete chain: an unknown UUID and an unknown
name both report the error and leave the chain untouched. -/
theorem rmRule_notFound_witness :
    rmRule parse99Fn rulesOne (Sum.inr "nope") =
      (rulesOne, some "Error: no rule matched\n") ∧
    rmRule parseNoneFn rulesOne (Sum.inr "nope") =
      (rulesOne, some "Error: no rule matched\n") :=
  ⟨(rmRule_notFound parse99Fn rulesOne "nope").1 99 rfl (by decide),
   (rmRule_notFound parseNoneFn rulesOne "nope").2 rfl (by decide)⟩

/-- C3 counterexample: on a chain with two entries named `x`, `rmRule`
with string `x` (not a UUID) removes *both* entries, not only the first:
the published chain is `[]`, while removing only the first match would
leave `[⟨1, "x", 0, 1⟩]`. -/
theorem rmRule_first_only_cex :
    rmRule parseNoneFn rulesDupName (Sum.inr "x") = ([], none) ∧
    rulesDupName.eraseIdx 0 = [⟨1, "x", 0, 1⟩] ∧
    (rmRule parseNoneFn rulesDupName (Sum.inr "x")).1 ≠
      rulesDupName.eraseIdx 0 := by
  refine ⟨by decide, by decide, by decide⟩

/-- C3 amended: when the string parses as a UUID held by some entry, every
entry with that id is removed and the shrunk chain is published; when UUID
parsing fails and some entry bears that name, *every* entry with that name
(not only the first) is removed and the shrunk chain is published. -/
theorem rmRule_removal (parse : String → Option Nat)
    (rules : List RuleEntry) (str : String) :
    (∀ uuid, parse str = some uuid → (∃ e ∈ rules, e.d_id = uuid) →
      rmRule parse rules (Sum.inr str) =
        (rules.filter (fun a => a.d_id ≠ uuid), none)) ∧
    (parse str = none → (∃ e ∈ rules, e.d_name = str) →
      rmRule parse rules (Sum.inr str) =
        (rules.filter (fun a => a.d_name ≠ str), none)) := by
  constructor
  · intro uuid hp hex
    obtain ⟨e, he, heq⟩ := hex
    have hne : ¬ ((rules.filter (fun a => a.d_id ≠ uuid)).length =
        rules.length) := by
      intro hlen
      have := (List.filter_length_eq_length.mp hlen) e he
      simp [heq] at this
    rw [rmRule_parse_some parse rules str uuid hp, if_neg hne]
  · intro hp hex
    obtain ⟨e, he, heq⟩ := hex
    have hne : ¬ ((rules.filter (fun a => a.d_name ≠ str)).length =
        rules.length) := by
      intro hlen
      have := (List.filter_length_eq_length.mp hlen) e he
      simp [heq] at this
    rw [rmRule_parse_none parse rules str hp, if_neg hne]

/-- Witness for C3 (amended) at a concrete chain: a matching UUID removes
the matching entry; a duplicated name removes every entry with it. -/
theorem rmRule_removal_witness :
    rmRule parse0Fn rulesDupName (Sum.inr "whatever") =
      ([⟨1, "x", 0, 1⟩], none) ∧
    rmRule parseNoneFn rulesDupName (Sum.inr "x") = ([], none) := by
  constructor
  · have h := (rmRule_removal parse0Fn rulesDupName "whatever").1 0 rfl
      ⟨⟨0, "x", 0, 0⟩, by decide, rfl⟩
    rw [h]; decide
  · have h := (rmRule_removal parseNoneFn rulesDupName "x").2 rfl
      ⟨⟨0, "x", 0, 0⟩, by decide, rfl⟩
    rw [h]; decide

/-- Erasing the entry at an in-bounds index and reinserting it at the same
index restores the list. -/
theorem insertIdx_eraseIdx_getD {α : Type} [Inhabited α] :
    ∀ (l : List α) (i : Nat), i < l.length →
      (l.eraseIdx i).insertIdx i (l.getD i default) = l
  | [], i, h => by simp at h
  | x :: xs, 0, _ => by simp
  | x :: xs, i + 1, h => by
    have hi : i < xs.length := by simpa using h
    have ih := insertIdx_eraseIdx_getD xs i hi
    simpa [List.eraseIdx, List.getD] using ih

/-- A three-entry chain for instantiating the `mvRule` theorem. -/
def rulesThree : List RuleEntry :=
  [⟨0, "a", 0, 0⟩, ⟨1, "b", 0, 1⟩, ⟨2, "c", 0, 2⟩]

/-- C5: on a chain of length `L`, `mvRule from to` with `from >= L` or
`to > L` reports an invalid-index error and leaves the chain unchanged;
with `from < L` and `to <= L` it removes the entry at `from` and reinserts
it at `to - 1` when `from < to` and at `to` otherwise, publishing the
result without error; in particular `mvRule i i` republishes the chain
unchanged. -/
theorem mvRule_spec (rules : List RuleEntry) (frm tgt : Nat) :
    ((rules.length ≤ frm ∨ rules.length < tgt) →
      mvRule rules frm tgt =
        (rules, some "Error: attempt to move rules from/to invalid index\n")) ∧
    (frm < rules.length → tgt ≤ rules.length →
      mvRule rules frm tgt =
        ((rules.eraseIdx frm).insertIdx (if frm < tgt then tgt - 1 else tgt)
          (rules.getD frm default), none)) ∧
    (frm < rules.length → mvRule rules frm frm = (rules, none)) := by
  refine ⟨?_, ?_, ?_⟩
  · intro h
    have hc : rules.length ≤ frm ∨ rules.length < tgt := h
    simp only [mvRule, if_pos hc]
  · intro hfrm htgt
    have hc : ¬ (rules.length ≤ frm ∨ rules.length < tgt) := by omega
    have hlen : (rules.eraseIdx frm).length + 1 = rules.length :=
      List.length_eraseIdx_add_one hfrm
    simp only [mvRule, if_neg hc]
    by_cases hsm : (rules.eraseIdx frm).length < tgt
    · have htgtL : tgt = rules.length := by omega
      have hflt : frm < tgt := by omega
      rw [if_pos hsm, if_pos hflt]
      have : tgt - 1 = (rules.eraseIdx frm).length := by omega
      rw [this, List.insertIdx_length_self]
    · rw [if_neg hsm]
  · intro hfrm
    have hc : ¬ (rules.length ≤ frm ∨ rules.length < frm) := by omega
    have hlen : (rules.eraseIdx frm).length + 1 = rules.length :=
      List.length_eraseIdx_add_one hfrm
    have hsm : ¬ ((rules.eraseIdx frm).length < frm) := by omega
    simp only [mvRule, if_neg hc, if_neg hsm, Nat.lt_irrefl, if_false]
    rw [insertIdx_eraseIdx_getD rules frm hfrm]

/-- Witness for C5 at a concrete three-entry chain: an out-of-bounds move
is rejected, `mvRule 0 2` lands the first entry at position 1 of the
shrunk list (logical position 2 of the result), and `mvRule 1 1` is a
no-op. -/
theorem mvRule_spec_witness :
    mvRule rulesThree 3 1 =
      (rulesThree,
        some "Error: attempt to move rules from/to invalid index\n") ∧
    mvRule rulesThree 0 2 =
      ([⟨1, "b", 0, 1⟩, ⟨0, "a", 0, 0⟩, ⟨2, "c", 0, 2⟩], none) ∧
    mvRule rulesThree 1 1 = (rulesThree, none) := by
  refine ⟨(mvRule_spec rulesThree 3 1).1 (Or.inl (by decide)), ?_,
    (mvRule_spec rulesThree 1 1).2.2 (by decide)⟩
  rw [(mvRule_spec rulesThree 0 2).2.1 (by decide) (by decide)]
  decide

/-- The accumulator pair built by `makeRule`'s loop: the masks in input
order, and the rejected strings in input order. -/
theorem makeRuleAccum_eq (isMask : String → Bool) (input : List String) :
    makeRuleAccum isMask input =
      (input.filter isMask, input.filter (fun s => ¬ isMask s)) := by
  suffices h : ∀ (l : List String) (acc : List String × List String),
      l.foldl (fun acc src => if isMask src then (acc.1 ++ [src], acc.2)
        else (acc.1, acc.2 ++ [src])) acc =
      (acc.1 ++ l.filter isMask, acc.2 ++ l.filter (fun s => ¬ isMask s)) by
    simpa [makeRuleAccum] using h input ([], [])
  intro l
  induction l with
  | nil => intro acc; simp
  | cons x xs ih =>
    intro acc
    by_cases hx : isMask x
    · simp [hx, ih]
    · simp [hx, ih]

/-- C6: `makeRule` on a list of strings tries each element as a network
mask, demoting parse failures to domain suffixes; if at least one mask is
accepted the result is the netmask-group predicate (source match, not
quiet) over exactly the accepted masks and the suffix entries are dropped;
only when no element parses as a mask is the result the suffix-match
predicate over all the entries.  Either way the result is a single
predicate, never a combination of both kinds. -/
theorem makeRule_masksWin (isMask : String → Bool) (input : List String) :
    ((∃ s ∈ input, isMask s = true) →
      makeRule isMask input =
        DNSRule.netmaskGroupRule (input.filter isMask) true false) ∧
    ((∀ s ∈ input, isMask s = false) →
      makeRule isMask input =
        DNSRule.suffixMatchNodeRule input false) := by
  constructor
  · intro hex
    obtain ⟨s, hs, hmask⟩ := hex
    have hmem : s ∈ input.filter isMask := List.mem_filter.mpr ⟨hs, hmask⟩
    have hne : (input.filter isMask).isEmpty = false := by
      cases hfe : input.filter isMask with
      | nil => rw [hfe] at hmem; cases hmem
      | cons a l => simp
    simp only [makeRule, makeRuleAccum_eq, hne, Bool.false_eq_true,
      if_false]
  · intro hall
    have hmask_nil : input.filter isMask = [] :=
      List.filter_eq_nil_iff.mpr (by intro a ha; simp [hall a ha])
    have hrest : input.filter (fun s => ¬ isMask s) = input :=
      List.filter_eq_self.mpr (by intro a ha; simp [hall a ha])
    simp only [makeRule, makeRuleAccum_eq, hmask_nil, hrest,
      List.isEmpty_nil, if_true]

/-- The mask parser used to instantiate the `makeRule` theorem: accepts
exactly the CIDR literal `10.0.0.0/8`. -/
def isMaskTen : String → Bool := fun s => s == "10.0.0.0/8"

/-- Witness for C6: on `["10.0.0.0/8", "example.com"]` the accepted mask
wins and `example.com` is dropped; on `["example.com"]` alone the result
is the suffix predicate. -/
theorem makeRule_masksWin_witness :
    makeRule isMaskTen ["10.0.0.0/8", "example.com"] =
      DNSRule.netmaskGroupRule ["10.0.0.0/8"] true false ∧
    makeRule isMaskTen ["example.com"] =
      DNSRule.suffixMatchNodeRule ["example.com"] false := by
  constructor
  · have h := (makeRule_masksWin isMaskTen
      ["10.0.0.0/8", "example.com"]).1 ⟨"10.0.0.0/8", by decide, by decide⟩
    rw [h]; decide
  · exact (makeRule_masksWin isMaskTen ["example.com"]).2 (by decide)

/-- The message `checkParameterBound` rejects an oversized value with. -/
theorem checkParameterBound_err (p : String) (v mx : Nat) (h : mx < v) :
    checkParameterBound p v mx = Except.error (boundErrorMsg p v mx) := by
  simp [checkParameterBound, h]

/-- `checkParameterBound` accepts any value within the bound. -/
theorem checkParameterBound_ok (p : String) (v mx : Nat) (h : v ≤ mx) :
    checkParameterBound p v mx = Except.ok () := by
  simp [checkParameterBound, Nat.not_lt.mpr h]

/-- C8: every range-checked Lua constructor rejects a wider integer
argument that exceeds its target field's representable range with a
descriptive error (8-bit fields: `OpcodeRule`, `RCodeRule`, `ERCodeRule`,
`EDNSVersionRule`, the section of `RecordsCountRule`; 16-bit fields:
`QClassRule`, `DSTPortRule`, `EDNSOptionRule`, the counts of
`RecordsCountRule`) and constructs no predicate; every in-range argument
is accepted and the predicate is built. -/
theorem rangeChecked_constructors (v s mn mx : Nat) :
    (v ≤ 255 → OpcodeRule v = Except.ok (DNSRule.opcodeRule v)) ∧
    (255 < v → OpcodeRule v =
      Except.error (boundErrorMsg "OpcodeRule" v 255)) ∧
    (v ≤ 255 → RCodeRule v = Except.ok (DNSRule.rcodeRule v)) ∧
    (255 < v → (RCodeRule v).isOk = false) ∧
    (v ≤ 255 → ERCodeRule v = Except.ok (DNSRule.ercodeRule v)) ∧
    (255 < v → (ERCodeRule v).isOk = false) ∧
    (v ≤ 255 → EDNSVersionRule v =
      Except.ok (DNSRule.ednsVersionRule v)) ∧
    (255 < v → (EDNSVersionRule v).isOk = false) ∧
    (v ≤ 65535 → QClassRule v = Except.ok (DNSRule.qclassRule v)) ∧
    (65535 < v → QClassRule v =
      Except.error (boundErrorMsg "QClassRule" v 65535)) ∧
    (v ≤ 65535 → DSTPortRule v = Except.ok (DNSRule.dstPortRule v)) ∧
    (65535 < v → (DSTPortRule v).isOk = false) ∧
    (v ≤ 65535 → EDNSOptionRule v =
      Except.ok (DNSRule.ednsOptionRule v)) ∧
    (65535 < v → (EDNSOptionRule v).isOk = false) ∧
    (s ≤ 255 → mn ≤ 65535 → mx ≤ 65535 →
      RecordsCountRule s mn mx =
        Except.ok (DNSRule.recordsCountRule s mn mx)) ∧
    (255 < s → (RecordsCountRule s mn mx).isOk = false) ∧
    (65535 < mn → (RecordsCountRule s mn mx).isOk = false) ∧
    (s ≤ 255 → mn ≤ 65535 → 65535 < mx →
      (RecordsCountRule s mn mx).isOk = false) := by
  refine ⟨?_, ?_, ?_, ?_, ?_, ?_, ?_, ?_, ?_, ?_, ?_, ?_, ?_, ?_, ?_,
    ?_, ?_, ?_⟩ <;> intro h
  case _ => rw [OpcodeRule, checkParameterBound_ok _ _ _ h]; rfl
  case _ => rw [OpcodeRule, checkParameterBound_err _ _ _ h]; rfl
  case _ => rw [RCodeRule, checkParameterBound_ok _ _ _ h]; rfl
  case _ => rw [RCodeRule, checkParameterBound_err _ _ _ h]; rfl
  case _ => rw [ERCodeRule, checkParameterBound_ok _ _ _ h]; rfl
  case _ => rw [ERCodeRule, checkParameterBound_err _ _ _ h]; rfl
  case _ => rw [EDNSVersionRule, checkParameterBound_ok _ _ _ h]; rfl
  case _ => rw [EDNSVersionRule, checkParameterBound_err _ _ _ h]; rfl
  case _ => rw [QClassRule, checkParameterBound_ok _ _ _ h]; rfl
  case _ => rw [QClassRule, checkParameterBound_err _ _ _ h]; rfl
  case _ => rw [DSTPortRule, checkParameterBound_ok _ _ _ h]; rfl
  case _ => rw [DSTPortRule, checkParameterBound_err _ _ _ h]; rfl
  case _ => rw [EDNSOptionRule, checkParameterBound_ok _ _ _ h]; rfl
  case _ => rw [EDNSOptionRule, checkParameterBound_err _ _ _ h]; rfl
  case _ =>
    intro hmn hmx
    rw [RecordsCountRule, checkParameterBound_ok _ _ _ h,
      checkParameterBound_ok _ _ _ hmn, checkParameterBound_ok _ _ _ hmx]
    rfl
  case _ => rw [RecordsCountRule, checkParameterBound_err _ _ _ h]; rfl
  case _ =>
    rw [RecordsCountRule]
    cases hcb : checkParameterBound "RecordsCountRule" s 255 with
    | error e => rfl
    | ok u =>
      cases u
      rw [show (do
        _ ← Except.ok ()
        _ ← checkParameterBound "RecordsCountRule" mn 65535
        _ ← checkParameterBound "RecordsCountRule" mx 65535
        pure (DNSRule.recordsCountRule s mn mx) :
          Except String DNSRule) = (do
        _ ← checkParameterBound "RecordsCountRule" mn 65535
        _ ← checkParameterBound "RecordsCountRule" mx 65535
        pure (DNSRule.recordsCountRule s mn mx)) from rfl]
      rw [checkParameterBound_err _ _ _ h]
      rfl
  case _ =>
    intro hmn hmx
    rw [RecordsCountRule, checkParameterBound_ok _ _ _ h,
      checkParameterBound_ok _ _ _ hmn, checkParameterBound_err _ _ _ hmx]
    rfl

/-- Witness for C8 at concrete values: 255/256 at the 8-bit boundary,
65535/65536 at the 16-bit boundary, and an out-of-range count in
`RecordsCountRule`. -/
theorem rangeChecked_constructors_witness :
    OpcodeRule 255 = Except.ok (DNSRule.opcodeRule 255) ∧
    OpcodeRule 256 = Except.error (boundErrorMsg "OpcodeRule" 256 255) ∧
    boundErrorMsg "OpcodeRule" 256 255 =
      "The value (256) passed to OpcodeRule is too large, the maximum is 255" ∧
    QClassRule 65535 = Except.ok (DNSRule.qclassRule 65535) ∧
    QClassRule 65536 = Except.error (boundErrorMsg "QClassRule" 65536 65535) ∧
    RecordsCountRule 1 2 3 =
      Except.ok (DNSRule.recordsCountRule 1 2 3) ∧
    (RecordsCountRule 1 2 70000).isOk = false := by
  have h255 := rangeChecked_constructors 255 0 0 0
  have h256 := rangeChecked_constructors 256 0 0 0
  have h65535 := rangeChecked_constructors 65535 0 0 0
  have h65536 := rangeChecked_constructors 65536 0 0 0
  have hrc := rangeChecked_constructors 0 1 2 3
  have hrcBad := rangeChecked_constructors 0 1 2 70000
  refine ⟨h255.1 (by decide), h256.2.1 (by decide), by decide,
    h65535.2.2.2.2.2.2.2.2.1 (by decide),
    h65536.2.2.2.2.2.2.2.2.2.1 (by decide), ?_, ?_⟩
  · exact hrc.2.2.2.2.2.2.2.2.2.2.2.2.2.2.1 (by decide) (by decide)
      (by decide)
  · exact hrcBad.2.2.2.2.2.2.2.2.2.2.2.2.2.2.2.2.2 (by decide)
      (by decide) (by decide)

/-- `countsFrom` yields one pair per entry. -/
theorem countsFrom_length : ∀ (k : Nat) (l : List RuleEntry),
    (countsFrom k l).length = l.length
  | _, [] => rfl
  | k, _ :: xs => congrArg Nat.succ (countsFrom_length (k + 1) xs)

/-- Looking every `(matchCount, position)` pair of `countsFrom` back up in
the chain recovers the corresponding suffix of the chain. -/
theorem countsFrom_map_getD (full : List RuleEntry) :
    ∀ (rest pre : List RuleEntry), full = pre ++ rest →
      (countsFrom pre.length rest).map
        (fun p => full.getD p.2 default) = rest
  | [], _, _ => by simp [countsFrom]
  | r :: rest', pre, hfull => by
    have hget : full.getD pre.length default = r := by
      rw [hfull, List.getD, List.get?_eq_getElem?,
        List.getElem?_append_right (Nat.le_refl pre.length)]
      simp
    have hih := countsFrom_map_getD full rest' (pre ++ [r])
      (by rw [hfull]; simp)
    simp only [countsFrom, List.map_cons, hget]
    simp only [List.length_append, List.length_cons, List.length_nil,
      Nat.zero_add] at hih
    rw [hih]

/-- Each pair recorded by `countsFrom` carries the match count of the
entry its position looks up. -/
theorem countsFrom_matches (full : List RuleEntry) :
    ∀ (rest pre : List RuleEntry), full = pre ++ rest →
      ∀ p ∈ countsFrom pre.length rest,
        (full.getD p.2 default).d_matches = p.1
  | [], _, _ => by intro p hp; cases hp
  | r :: rest', pre, hfull => by
    intro p hp
    simp only [countsFrom, List.mem_cons] at hp
    rcases hp with hp | hp
    · subst hp
      have hget : full.getD pre.length default = r := by
        rw [hfull, List.getD, List.get?_eq_getElem?,
          List.getElem?_append_right (Nat.le_refl pre.length)]
        simp
      simpa using congrArg RuleEntry.d_matches hget
    · exact countsFrom_matches full rest' (pre ++ [r]) (by rw [hfull]; simp)
        p (by simpa using hp)

/-- `truncTop` keeps a sub-list of the sorted counts. -/
theorem truncTop_sublist (top : Nat) (l : List (Nat × Nat)) :
    (truncTop top l).Sublist l := by
  by_cases h0 : top = 0
  · simp [truncTop, h0]
  · rw [truncTop, if_neg h0]
    exact List.take_sublist top l

/-- A one-entry chain with a non-zero match count. -/
def rulesTop : List RuleEntry := [⟨7, "only", 5, 0⟩]

/-- C1 counterexample: on the non-empty chain `rulesTop`, `[the entry]` is
the result of `getTopRules` with `top = 0` — the count/`top` equality
check fires only after the counter has been incremented, so `top = 0`
returns every entry rather than an empty result. -/
theorem getTopRules_topZero_cex :
    getTopRulesRel rulesTop 0 rulesTop ∧ rulesTop ≠ [] :=
  ⟨⟨countsOf rulesTop, List.Perm.refl _, by decide, by decide⟩, by decide⟩

/-- C1 amended: `getTopRules` with `top = 0` — and likewise with
`top >= length` — returns all entries of the chain (as a permutation of
it; the order is the sorted order): the truncation never fires. -/
theorem getTopRules_all (rules : List RuleEntry) (top : Nat)
    (out : List RuleEntry) (h : getTopRulesRel rules top out)
    (htop : top = 0 ∨ rules.length ≤ top) : out.Perm rules := by
  obtain ⟨scounts, hperm, hsort, hout⟩ := h
  have hlen : scounts.length = rules.length := by
    rw [hperm.length_eq, countsOf, countsFrom_length]
  have htrunc : truncTop top scounts = scounts := by
    rcases htop with h0 | hge
    · simp [truncTop, h0]
    · by_cases h0 : top = 0
      · simp [truncTop, h0]
      · rw [truncTop, if_neg h0]
        exact List.take_of_length_le (by omega)
  rw [hout, htrunc]
  have hmap := hperm.map (fun p => rules.getD p.2 default)
  rw [countsOf, show (0 : Nat) = List.length ([] : List RuleEntry)
    from rfl, countsFrom_map_getD rules rules [] rfl] at hmap
  exact hmap

/-- A two-entry chain whose second entry has the higher match count. -/
def rulesTwoTop : List RuleEntry := [⟨0, "lo", 1, 0⟩, ⟨1, "hi", 5, 1⟩]

/-- The sorted view of `rulesTwoTop`. -/
def outTwoTop : List RuleEntry := [⟨1, "hi", 5, 1⟩, ⟨0, "lo", 1, 0⟩]

/-- Witness for C1 (amended): with `top = 0` on a two-entry chain the
sorted output contains both entries. -/
theorem getTopRules_all_witness : List.Perm outTwoTop rulesTwoTop :=
  getTopRules_all rulesTwoTop 0 outTwoTop
    ⟨[(5, 1), (1, 0)], by decide, by decide, by decide⟩ (Or.inl rfl)

/-- A two-entry chain whose entries tie on match count. -/
def rulesTie : List RuleEntry := [⟨0, "a", 5, 0⟩, ⟨1, "b", 5, 1⟩]

/-- `rulesTie` in reversed order. -/
def outTie : List RuleEntry := [⟨1, "b", 5, 1⟩, ⟨0, "a", 5, 0⟩]

/-- C2 counterexample: `std::sort` is not stable and its comparator
ignores the position component, so on a chain whose two entries tie on
match count the reversed order is a legal `getTopRules` output: the
equal-count entries need not appear in the order of their original
positions. -/
theorem getTopRules_stable_cex :
    getTopRulesRel rulesTie 2 outTie ∧
    ¬ List.Pairwise (fun a b : RuleEntry =>
        a.d_matches = b.d_matches →
        rulesTie.indexOf a ≤ rulesTie.indexOf b) outTie := by
  constructor
  · exact ⟨[(5, 1), (5, 0)], by decide, by decide, by decide⟩
  · decide

/-- C2 amended: every `getTopRules` output is sorted by match count in
non-increasing order; the relative order of entries with equal match
counts is not specified (the sort is not stable). -/
theorem getTopRules_sorted (rules : List RuleEntry) (top : Nat)
    (out : List RuleEntry) (h : getTopRulesRel rules top out) :
    List.Pairwise
      (fun a b : RuleEntry => b.d_matches ≤ a.d_matches) out := by
  obtain ⟨scounts, hperm, hsort, hout⟩ := h
  subst hout
  have hmem : ∀ p ∈ truncTop top scounts,
      (rules.getD p.2 default).d_matches = p.1 := by
    intro p hp
    have hp2 : p ∈ scounts := (truncTop_sublist top scounts).mem hp
    have hp3 : p ∈ countsOf rules := hperm.mem_iff.mp hp2
    exact countsFrom_matches rules rules [] rfl p hp3
  have hpw : List.Pairwise (fun a b : Nat × Nat => b.1 ≤ a.1)
      (truncTop top scounts) :=
    List.Pairwise.sublist (truncTop_sublist top scounts) hsort
  rw [List.pairwise_map]
  exact hpw.imp_of_mem
    (fun ha hb hab => by
      rw [hmem _ ha, hmem _ hb]
      exact hab)

/-- Witness for C2 (amended): a concrete legal output of `getTopRules` on
the tied chain is sorted by match count. -/
theorem getTopRules_sorted_witness :
    List.Pairwise
      (fun a b : RuleEntry => b.d_matches ≤ a.d_matches) outTwoTop :=
  getTopRules_sorted rulesTwoTop 10 outTwoTop
    ⟨[(5, 1), (1, 0)], by decide, by decide, by decide⟩

end DnsdistLuaRules
